import Mathlib

/-!
Verification of the column-to-field mapping engine of `pydantic-sqlalchemy`
(also published as `alchemista`).  The repository ships only the tests
(`tests/field/test_make_field.py`) and an example (`examples/simple_person.py`);
the synthesizer itself (`pydantic_sqlalchemy.field.make_field` and
`sqlalchemy_to_pydantic` / `model_from`) is modelled here from the
specification, with behavior pinned to what the in-repository tests assert.
-/

set_option autoImplicit false

namespace Alchemista

/-- A JSON-like runtime value, standing for the Python values that appear as
column defaults, metadata-bag entries and JSON-Schema fragments. -/
inductive Value where
  | int (n : Int)
  | str (s : String)
  | bool (b : Bool)
  | null
  | list (vs : List Value)
  | obj (kvs : List (String × Value))

/-- Modelled from the spec: `declared_enum_values: ordered sequence of
(name, value)` — an enumeration source type, with its class name and its
members (name, value) in declaration order.  The tests use string-valued
enumerations, so member values are strings. -/
structure EnumType where
  ename : String
  members : List (String × String)
deriving DecidableEq

/-- The column's primitive storage type (the SQLAlchemy types the tests
exercise: `Integer`, `String(n)` / `String` / `Text`, `DateTime`,
`Enum(E)`, `ARRAY`).  A bounded string carries its declared length. -/
inductive ColType where
  | integer
  | text (length : Option Nat)
  | datetime
  | enumeration (e : EnumType)
  | array (item : ColType)
deriving DecidableEq

/-- The free-form metadata bag attached to a column (`info=FieldKwargs(...)` /
`info=dict(...)` in the tests): a string-keyed mapping. -/
abbrev FieldKwargs := List (String × Value)

/-- Modelled from the spec: `default: value | zero-arg callable | absent`.
A zero-argument callable is modelled as a function of the invocation tick,
so that each per-instance invocation may observe a different value.
(A Python `default=None` carries no default, hence maps to `absent`.) -/
inductive ColumnDefault where
  | absent
  | value (v : Value)
  | callable (f : Nat → Value)

/-- Modelled from the spec: the ColumnDescriptor read off the record-model
framework — name, python type, nullability, primary-key flag, default and
metadata bag. -/
structure Column where
  name : String
  ctype : ColType
  nullable : Bool
  primary_key : Bool
  cdefault : ColumnDefault
  info : FieldKwargs

/-- Modelled from the spec: `exactly one of default_value, default_factory,
or "required" holds per FieldSpec`. -/
inductive FieldDefault where
  | required
  | value (v : Value)
  | factory (f : Nat → Value)

def FieldDefault.isRequired : FieldDefault → Bool
  | .required => true
  | _ => false

/-- Modelled from the spec: the FieldSpec produced by the Field Synthesizer —
name, resolved type, optional wrapping, default-or-factory-or-required, and
the reconciled constraint set. -/
structure FieldSpec where
  name : String
  ftype : ColType
  optional : Bool
  fdefault : FieldDefault
  constraints : FieldKwargs

/-- Modelled from the spec: the two fatal error kinds of the synthesis
taxonomy — `ConstraintConflictError` and `UnsupportedTypeError`. -/
inductive SynthError where
  | constraintConflict (msg : String)
  | unsupportedType (msg : String)

/-- First-match lookup in a string-keyed mapping. -/
def lookupInfo (kvs : FieldKwargs) (k : String) : Option Value :=
  (kvs.find? (fun p => p.1 == k)).map Prod.snd

/-- The declared bounded-string length of a column type, when present. -/
def declaredLength : ColType → Option Nat
  | .text l => l
  | _ => none

/-- The `ConstraintConflictError` message, pinned to the test
`test_length_from_info_must_match_column_definition`: it names the metadata
value first and the declared column-type length second. -/
def conflictMessage (m : Int) (l : Nat) : String :=
  "max_length (" ++ (toString m ++ (") differs from length set for column type (" ++
    (toString l ++ "). Either remove max_length from info (preferred) or set them to equal values")))

/-- Modelled from the spec: if both the intrinsic definition and the metadata
bag assert the string length with different values, raise
`ConstraintConflictError`; if they assert the same value, no error. -/
def checkLengthConflict (c : Column) : Except SynthError Unit :=
  match declaredLength c.ctype, lookupInfo c.info "max_length" with
  | some l, some (Value.int m) =>
      if m = (l : Int) then Except.ok ()
      else Except.error (SynthError.constraintConflict (conflictMessage m l))
  | _, _ => Except.ok ()

/-- Modelled from the spec: constraints implied by the intrinsic column
definition (currently: bounded-string `max_length` from the declared length). -/
def intrinsicConstraints (t : ColType) : FieldKwargs :=
  match declaredLength t with
  | some l => [("max_length", Value.int l)]
  | none => []

/-- Overlay the metadata bag over intrinsic constraints: a metadata entry
replaces an intrinsic entry with the same key (after the conflict check has
established that such a replacement is value-preserving). -/
def overlay (base extra : FieldKwargs) : FieldKwargs :=
  base.filter (fun p => (lookupInfo extra p.1).isNone) ++ extra

/-- Modelled from the spec, step 3 of the Field Synthesizer: a primary key is
always required (any default is ignored); a callable default becomes a
factory; a concrete value becomes a static default; otherwise the field is
required unless nullable, in which case it defaults to the null value. -/
def resolveDefault (c : Column) : FieldDefault :=
  if c.primary_key then FieldDefault.required
  else
    match c.cdefault with
    | ColumnDefault.callable f => FieldDefault.factory f
    | ColumnDefault.value v => FieldDefault.value v
    | ColumnDefault.absent =>
        if c.nullable then FieldDefault.value Value.null else FieldDefault.required

/-- Modelled from the spec: `synthesize_field(column) -> FieldSpec` (called
`make_field` in the repository's test layout): checks the intrinsic/metadata
length conflict, then assembles the field specification.  The type is wrapped
optional when the column is nullable or a primary key. -/
def make_field (c : Column) : Except SynthError FieldSpec :=
  match checkLengthConflict c with
  | Except.error e => Except.error e
  | Except.ok _ =>
      Except.ok
        { name := c.name
          ftype := c.ctype
          optional := c.nullable || c.primary_key
          fdefault := resolveDefault c
          constraints := overlay (intrinsicConstraints c.ctype) c.info }

/-- The model-level configuration object passed through opaquely
(`config=ValidateAssignment` in the tests). -/
structure Config where
  validate_assignment : Bool

/-- Modelled from the spec: the ModelSpec — source-class name, field specs in
declaration order, pass-through configuration. -/
structure ModelSpec where
  mname : String
  fields : List FieldSpec
  config : Config

/-- Synthesize all columns in declaration order, fail-fast on the first
error (no aggregation, no partial model). -/
def synthesizeFields : List Column → Except SynthError (List FieldSpec)
  | [] => Except.ok []
  | c :: cs =>
      match make_field c with
      | Except.error e => Except.error e
      | Except.ok f =>
          match synthesizeFields cs with
          | Except.error e => Except.error e
          | Except.ok fs => Except.ok (f :: fs)

/-- Modelled from the spec: `synthesize_model(record_model_class, config)` —
the repository's `sqlalchemy_to_pydantic` / `model_from` entry point. -/
def sqlalchemy_to_pydantic (name : String) (cfg : Config) (cols : List Column) :
    Except SynthError ModelSpec :=
  match synthesizeFields cols with
  | Except.error e => Except.error e
  | Except.ok fs => Except.ok { mname := name, fields := fs, config := cfg }

/-! ### Schema introspection (`.schema()` on the synthesized model)

Modelled from the spec's output boundary, with the keyword behavior pinned to
the pydantic-v1 schemas the tests assert: `ge→minimum`, `gt→exclusiveMinimum`,
`le→maximum`, `lt→exclusiveMaximum`, `multiple_of→multipleOf`,
`min_items/max_items→minItems/maxItems`, `min_length/max_length→minLength/
maxLength`, `regex→pattern`; `alias` renames the exposed property instead of
appearing as a keyword, `const` is not emitted, `title` drives the title
keyword; other keys pass through under their own name
(`test_all_pydantic_attributes_from_info`, `test_allow_mutation`). -/

/-- The JSON-Schema keyword a recognized constraint key surfaces as, or
`none` when it does not surface as a keyword of the property. -/
def schemaKeyword (k : String) : Option String :=
  if k = "ge" then some "minimum"
  else if k = "gt" then some "exclusiveMinimum"
  else if k = "le" then some "maximum"
  else if k = "lt" then some "exclusiveMaximum"
  else if k = "multiple_of" then some "multipleOf"
  else if k = "min_items" then some "minItems"
  else if k = "max_items" then some "maxItems"
  else if k = "min_length" then some "minLength"
  else if k = "max_length" then some "maxLength"
  else if k = "regex" then some "pattern"
  else if k = "alias" then none
  else if k = "const" then none
  else if k = "title" then none
  else some k

/-- Capitalize one word the way Python `str.title` does: first character
uppercased, the rest lowercased. -/
def capitalizeChars : List Char → List Char
  | [] => []
  | c :: cs => c.toUpper :: cs.map Char.toLower

/-- Split a character list at underscores, empty segments preserved; the
second argument accumulates the current segment in reverse. -/
def splitUnderscore : List Char → List Char → List (List Char)
  | [], acc => [acc.reverse]
  | c :: cs, acc =>
      if c = '_' then acc.reverse :: splitUnderscore cs []
      else splitUnderscore cs (c :: acc)

/-- The title pydantic derives from a field name when no explicit title is
given: underscores become spaces and each word is capitalized
(`dynamic_column` becomes `Dynamic Column`). -/
def derivedTitle (name : String) : String :=
  String.mk (List.intercalate [' '] ((splitUnderscore name.data []).map capitalizeChars))

/-- The title keyword of a field's schema property: the metadata `title` when
present, otherwise derived from the field name. -/
def fieldTitle (f : FieldSpec) : Value :=
  match lookupInfo f.constraints "title" with
  | some v => v
  | none => Value.str (derivedTitle f.name)

/-- The name under which the field is exposed (and populated): the metadata
`alias` when present, otherwise the column name. -/
def exposedName (f : FieldSpec) : String :=
  match lookupInfo f.constraints "alias" with
  | some (Value.str a) => a
  | _ => f.name

/-- The keyword entries contributed by the field's constraint set. -/
def constraintEntries (cs : FieldKwargs) : FieldKwargs :=
  cs.filterMap (fun p => (schemaKeyword p.1).map (fun k => (k, p.2)))

/-- The `default` keyword of the property: present for a static non-null
default, absent for factories, requiredness and the null default
(`test_default_comes_from_column_definition`,
`test_length_comes_from_column_definition`, `test_lambda_as_default_factory`). -/
def defaultEntry (f : FieldSpec) : FieldKwargs :=
  match f.fdefault with
  | FieldDefault.value Value.null => []
  | FieldDefault.value v => [("default", v)]
  | _ => []

/-- The `type`-describing keywords of the property, per the pinned schemas
(`DateTime` adds `format: date-time`, `ARRAY` adds `items`). -/
def typeEntries : ColType → FieldKwargs
  | ColType.integer => [("type", Value.str "integer")]
  | ColType.text _ => [("type", Value.str "string")]
  | ColType.datetime => [("type", Value.str "string"), ("format", Value.str "date-time")]
  | ColType.array _ => [("type", Value.str "array"), ("items", Value.obj [])]
  | ColType.enumeration _ => []

/-- The path under which an enumeration definition is referenced. -/
def refPath (e : EnumType) : String := "#/definitions/" ++ e.ename

/-- The title entry contributed only when the metadata bag sets one
explicitly — used for `$ref` fields, which get no derived title
(`test_enum` pins a titleless enum property for a title-free column, while
metadata keys are purely additive and pass through when present). -/
def explicitTitle (f : FieldSpec) : FieldKwargs :=
  match lookupInfo f.constraints "title" with
  | some v => [("title", v)]
  | none => []

/-- The schema property of one field.  An enumeration field carries its
explicit metadata keywords (title only when set explicitly — no derived
title, per `test_enum`), its static default (if any) and an `allOf`-wrapped
`$ref` to the shared definition; every other field carries its title, its
mapped constraint keywords, its default and its type keywords. -/
def fieldProperty (f : FieldSpec) : FieldKwargs :=
  match f.ftype with
  | ColType.enumeration e =>
      explicitTitle f ++ (constraintEntries f.constraints ++ defaultEntry f
        ++ [("allOf", Value.list [Value.obj [("$ref", Value.str (refPath e))]])])
  | _ =>
      ("title", fieldTitle f) :: (constraintEntries f.constraints ++ defaultEntry f
        ++ typeEntries f.ftype)

/-- The distinct enumeration types referenced by the fields, first occurrence
first, deduplicated by enumeration name (the per-synthesis-run identity map
of the spec). -/
def collectEnums : List FieldSpec → List EnumType
  | [] => []
  | f :: fs =>
      match f.ftype with
      | ColType.enumeration e =>
          e :: (collectEnums fs).filter (fun e2 => ! (e2.ename == e.ename))
      | _ => collectEnums fs

/-- The `definitions` entry synthesized for one enumeration type: its title,
the fixed description, its member values in declaration order, and the
`string` base type (`test_enum`). -/
def enumDefinition (e : EnumType) : Value :=
  Value.obj
    [("title", Value.str e.ename),
     ("description", Value.str "An enumeration."),
     ("enum", Value.list (e.members.map (fun m => Value.str m.2))),
     ("type", Value.str "string")]

/-- The JSON-Schema-shaped mapping returned by schema introspection. -/
structure ModelSchema where
  title : String
  otype : String
  properties : List (String × FieldKwargs)
  required : List String
  definitions : List (String × Value)

/-- Modelled from the spec's output boundary: `.schema()` — title from the
model name, `type: "object"`, one property per field in declaration order
under its exposed name, the required field names in declaration order, and
one deduplicated definition per referenced enumeration type. -/
def modelSchema (m : ModelSpec) : ModelSchema :=
  { title := m.mname
    otype := "object"
    properties := m.fields.map (fun f => (exposedName f, fieldProperty f))
    required := (m.fields.filter (fun f => f.fdefault.isRequired)).map exposedName
    definitions := (collectEnums m.fields).map (fun e => (e.ename, enumDefinition e)) }

/-! ### Instance construction and assignment -/

/-- Constructing one field of an instance: a supplied keyword (under the
exposed name) wins; otherwise the static default is used, or the factory is
invoked at this construction's tick; a required field with no keyword is a
validation error. -/
def constructField (f : FieldSpec) (kwargs : FieldKwargs) (tick : Nat) :
    Except String Value :=
  match lookupInfo kwargs (exposedName f) with
  | some v => Except.ok v
  | none =>
      match f.fdefault with
      | FieldDefault.value v => Except.ok v
      | FieldDefault.factory g => Except.ok (g tick)
      | FieldDefault.required => Except.error ("field required: " ++ f.name)

/-- Whether the field accepts reassignment: the metadata mutability flag,
defaulting to mutable. -/
def allowMutation (f : FieldSpec) : Bool :=
  match lookupInfo f.constraints "allow_mutation" with
  | some (Value.bool b) => b
  | _ => true

/-- Assigning `v` to field `fname` of an instance under a
validation-on-assignment configuration: rejected when the field's mutability
flag is false, otherwise the stored value is replaced. -/
def assign (m : ModelSpec) (inst : FieldKwargs) (fname : String) (v : Value) :
    Except String FieldKwargs :=
  match m.fields.find? (fun f => f.name == fname) with
  | none => Except.error ("no such field: " ++ fname)
  | some f =>
      if m.config.validate_assignment && ! allowMutation f then
        Except.error ("\"" ++ fname ++ "\" has allow_mutation set to False and cannot be assigned")
      else
        Except.ok (inst.map (fun p => if p.1 == fname then (fname, v) else p))

/-- The instance state after an attempted assignment: the updated instance on
success, the unchanged instance when the assignment raised. -/
def assignState (m : ModelSpec) (inst : FieldKwargs) (fname : String) (v : Value) :
    FieldKwargs :=
  match assign m inst fname v with
  | Except.ok inst2 => inst2
  | Except.error _ => inst

/-! ### Concrete columns and fields from the repository's tests, used as
witness inputs -/

/-- The conflicting column of `test_length_from_info_must_match_column_definition`:
`String(64)` with `info=dict(max_length=65)`. -/
def conflictCol : Column :=
  { name := "string", ctype := ColType.text (some 64), nullable := true,
    primary_key := false, cdefault := ColumnDefault.absent,
    info := [("max_length", Value.int 65)] }

/-- A primary-key column that also declares a default and is nullable: both
are overridden by the primary-key rule. -/
def pkCol : Column :=
  { name := "id", ctype := ColType.integer, nullable := true, primary_key := true,
    cdefault := ColumnDefault.value (Value.int 7), info := [] }

def pkField : FieldSpec :=
  { name := "id", ftype := ColType.integer, optional := true,
    fdefault := FieldDefault.required, constraints := [] }

/-- The `String(64)` column of `test_length_comes_from_column_definition`. -/
def lenCol : Column :=
  { name := "string", ctype := ColType.text (some 64), nullable := true, primary_key := false,
    cdefault := ColumnDefault.absent, info := [] }

def lenField : FieldSpec :=
  { name := "string", ftype := ColType.text (some 64), optional := true,
    fdefault := FieldDefault.value Value.null,
    constraints := [("max_length", Value.int 64)] }

/-- The `Column(String, default="default")` column of
`test_default_comes_from_column_definition`. -/
def defCol : Column :=
  { name := "column", ctype := ColType.text none, nullable := true, primary_key := false,
    cdefault := ColumnDefault.value (Value.str "default"), info := [] }

def defField : FieldSpec :=
  { name := "column", ftype := ColType.text none, optional := true,
    fdefault := FieldDefault.value (Value.str "default"), constraints := [] }

/-- A column with a zero-argument callable default, as in
`test_datetime_now_as_default_factory`: the callable is modelled as reading
the construction tick. -/
def factCol : Column :=
  { name := "datetime", ctype := ColType.datetime, nullable := true, primary_key := false,
    cdefault := ColumnDefault.callable (fun n => Value.int n), info := [] }

def factField : FieldSpec :=
  { name := "datetime", ftype := ColType.datetime, optional := true,
    fdefault := FieldDefault.factory (fun n => Value.int n), constraints := [] }

/-- The `Bool` enumeration of `test_enum`. -/
def boolEnum : EnumType := { ename := "Bool", members := [("FALSE", "F"), ("TRUE", "T")] }

/-- The enumeration column of `test_enum` (`default=Bool.TRUE`). -/
def enumCol1 : Column :=
  { name := "boolean", ctype := ColType.enumeration boolEnum, nullable := true,
    primary_key := false, cdefault := ColumnDefault.value (Value.str "T"), info := [] }

/-- A second column referencing the same enumeration type. -/
def enumCol2 : Column :=
  { name := "boolean2", ctype := ColType.enumeration boolEnum, nullable := true,
    primary_key := false, cdefault := ColumnDefault.absent, info := [] }

def enumField1 : FieldSpec :=
  { name := "boolean", ftype := ColType.enumeration boolEnum, optional := true,
    fdefault := FieldDefault.value (Value.str "T"), constraints := [] }

def enumField2 : FieldSpec :=
  { name := "boolean2", ftype := ColType.enumeration boolEnum, optional := true,
    fdefault := FieldDefault.value Value.null, constraints := [] }

def enumModel : ModelSpec :=
  { mname := "Test", fields := [enumField1, enumField2],
    config := { validate_assignment := false } }

/-- The unbounded `Text` column of `test_all_pydantic_attributes_from_info`,
reduced to its `max_length` metadata. -/
def textCol : Column :=
  { name := "string", ctype := ColType.text none, nullable := true, primary_key := false,
    cdefault := ColumnDefault.absent, info := [("max_length", Value.int 64)] }

/-- The lambda-default column of `test_lambda_as_default_factory`, whose
derived title is `Dynamic Column`. -/
def dynCol : Column :=
  { name := "dynamic_column", ctype := ColType.text none, nullable := true,
    primary_key := false,
    cdefault := ColumnDefault.callable (fun _ => Value.str "dynamic default"), info := [] }

def dynField : FieldSpec :=
  { name := "dynamic_column", ftype := ColType.text none, optional := true,
    fdefault := FieldDefault.factory (fun _ => Value.str "dynamic default"),
    constraints := [] }

/-- An enumeration column carrying an explicit metadata title. -/
def titledEnumCol : Column :=
  { name := "boolean", ctype := ColType.enumeration boolEnum, nullable := true,
    primary_key := false, cdefault := ColumnDefault.absent,
    info := [("title", Value.str "Flag")] }

def titledEnumField : FieldSpec :=
  { name := "boolean", ftype := ColType.enumeration boolEnum, optional := true,
    fdefault := FieldDefault.value Value.null,
    constraints := [("title", Value.str "Flag")] }

/-- The immutable column of `test_allow_mutation` (`allow_mutation=False`). -/
def mutCol : Column :=
  { name := "number", ctype := ColType.integer, nullable := true, primary_key := false,
    cdefault := ColumnDefault.absent, info := [("allow_mutation", Value.bool false)] }

/-- The mutable column of `test_allow_mutation` (`allow_mutation=True`). -/
def mutColTrue : Column :=
  { name := "number_mut", ctype := ColType.integer, nullable := true, primary_key := false,
    cdefault := ColumnDefault.absent, info := [("allow_mutation", Value.bool true)] }

def mutField : FieldSpec :=
  { name := "number", ftype := ColType.integer, optional := true,
    fdefault := FieldDefault.value Value.null,
    constraints := [("allow_mutation", Value.bool false)] }

def mutFieldTrue : FieldSpec :=
  { name := "number_mut", ftype := ColType.integer, optional := true,
    fdefault := FieldDefault.value Value.null,
    constraints := [("allow_mutation", Value.bool true)] }

/-- The model of `test_allow_mutation`, synthesized with
`validate_assignment=True`. -/
def mutModel : ModelSpec :=
  { mname := "Test", fields := [mutField, mutFieldTrue],
    config := { validate_assignment := true } }

/-- A column carrying `alias` and `const` metadata, as the `string` column of
`test_all_pydantic_attributes_from_info` does. -/
def constCol : Column :=
  { name := "string", ctype := ColType.text none, nullable := false, primary_key := false,
    cdefault := ColumnDefault.value (Value.str ""),
    info := [("alias", Value.str "text"), ("const", Value.str "")] }

def constField : FieldSpec :=
  { name := "string", ftype := ColType.text none, optional := false,
    fdefault := FieldDefault.value (Value.str ""),
    constraints := [("alias", Value.str "text"), ("const", Value.str "")] }

/-- The `age = Column(Integer, info=FieldKwargs(ge=0))` column of
`test_field_kwargs_used_as_info`. -/
def ageCol : Column :=
  { name := "age", ctype := ColType.integer, nullable := true, primary_key := false,
    cdefault := ColumnDefault.absent, info := [("ge", Value.int 0)] }

def ageField : FieldSpec :=
  { name := "age", ftype := ColType.integer, optional := true,
    fdefault := FieldDefault.value Value.null, constraints := [("ge", Value.int 0)] }

def ageModel : ModelSpec :=
  { mname := "Test", fields := [ageField], config := { validate_assignment := false } }

/-! ### Helper lemmas about mapping lookup and synthesis extraction -/

theorem lookupInfo_eq_none (xs : FieldKwargs) (k : String)
    (h : ∀ p ∈ xs, ¬ (p.1 == k) = true) : lookupInfo xs k = none := by
  unfold lookupInfo
  rw [List.find?_eq_none.mpr h]
  rfl

theorem lookupInfo_append_left_none (xs ys : FieldKwargs) (k : String)
    (h : lookupInfo xs k = none) : lookupInfo (xs ++ ys) k = lookupInfo ys k := by
  induction xs with
  | nil => rfl
  | cons p xs ih =>
      unfold lookupInfo at *
      cases hb : (p.1 == k) with
      | true => simp [List.find?, hb] at h
      | false => simp only [List.cons_append, List.find?, hb]; exact ih (by simpa [List.find?, hb] using h)

theorem lookupInfo_filter_none (xs : FieldKwargs) (p : String × Value → Bool) (k : String)
    (h : lookupInfo xs k = none) : lookupInfo (xs.filter p) k = none := by
  unfold lookupInfo at h
  apply lookupInfo_eq_none
  intro q hq
  have hq2 := List.mem_of_mem_filter hq
  have := List.find?_eq_none.mp (by cases hfind : List.find? (fun r => r.1 == k) xs with
    | none => rfl
    | some r => rw [hfind] at h; exact absurd h (by simp))
  exact this q hq2

theorem lookupInfo_mem (xs : FieldKwargs) (k : String) (v : Value)
    (h : lookupInfo xs k = some v) : (k, v) ∈ xs := by
  unfold lookupInfo at h
  cases hfind : List.find? (fun r => r.1 == k) xs with
  | none => rw [hfind] at h; exact absurd h (by simp)
  | some q =>
      rw [hfind] at h
      have hqmem : q ∈ xs := List.mem_of_find?_eq_some hfind
      have hqk := List.find?_some hfind
      have hk : q.1 = k := by simpa using hqk
      have hv : q.2 = v := by simpa using h
      have : q = (k, v) := by cases q; simp_all
      rw [← this]; exact hqmem

/-- Inversion for the field synthesizer: a successful synthesis produces
exactly the assembled field specification. -/
theorem make_field_ok (c : Column) (f : FieldSpec) (hf : make_field c = Except.ok f) :
    f = { name := c.name, ftype := c.ctype, optional := c.nullable || c.primary_key,
          fdefault := resolveDefault c,
          constraints := overlay (intrinsicConstraints c.ctype) c.info } := by
  unfold make_field at hf
  cases h : checkLengthConflict c with
  | error e => rw [h] at hf; exact Except.noConfusion hf
  | ok u => rw [h] at hf; exact (Except.ok.inj hf).symm

/-- Inversion for the model synthesizer: the produced model carries the
source name and the pass-through configuration. -/
theorem sqlalchemy_to_pydantic_ok (name : String) (cfg : Config) (cols : List Column)
    (m : ModelSpec) (hm : sqlalchemy_to_pydantic name cfg cols = Except.ok m) :
    m.mname = name ∧ m.config = cfg ∧ synthesizeFields cols = Except.ok m.fields := by
  unfold sqlalchemy_to_pydantic at hm
  cases h : synthesizeFields cols with
  | error e => rw [h] at hm; exact Except.noConfusion hm
  | ok fs =>
      rw [h] at hm
      have := (Except.ok.inj hm).symm
      subst this
      exact ⟨rfl, rfl, rfl⟩

/-- Every key of the intrinsic constraint set is `max_length`. -/
theorem intrinsicConstraints_keys (t : ColType) (p : String × Value)
    (h : p ∈ intrinsicConstraints t) : p.1 = "max_length" := by
  unfold intrinsicConstraints at h
  cases hd : declaredLength t with
  | none => rw [hd] at h; exact absurd h (by simp)
  | some l => rw [hd] at h; rw [List.mem_singleton.mp h]

/-- A key the intrinsic set never carries looks up in the reconciled
constraint set exactly as it does in the metadata bag. -/
theorem lookupInfo_overlay_of_ne (c : Column) (k : String) (hk : ¬ k = "max_length") :
    lookupInfo (overlay (intrinsicConstraints c.ctype) c.info) k = lookupInfo c.info k := by
  unfold overlay
  apply lookupInfo_append_left_none
  apply lookupInfo_filter_none
  apply lookupInfo_eq_none
  intro p hp
  rw [intrinsicConstraints_keys c.ctype p hp]
  simp
  intro h
  exact hk h.symm

/-- The schema property of a non-enumeration field: a title followed by the
mapped constraint keywords, the default and the type keywords. -/
theorem fieldProperty_of_not_enum (f : FieldSpec) (h : ∀ e, ¬ f.ftype = ColType.enumeration e) :
    fieldProperty f = ("title", fieldTitle f) ::
      (constraintEntries f.constraints ++ defaultEntry f ++ typeEntries f.ftype) := by
  unfold fieldProperty
  cases hft : f.ftype with
  | enumeration e => exact absurd hft (h e)
  | integer => rfl
  | text lo => rfl
  | datetime => rfl
  | array it => rfl

/-- The schema property of an enumeration field: the explicit title (if
any), the mapped constraint keywords and the static default entry, followed
by the `allOf`-wrapped reference. -/
theorem fieldProperty_of_enum (f : FieldSpec) (e : EnumType)
    (h : f.ftype = ColType.enumeration e) :
    fieldProperty f = explicitTitle f ++ (constraintEntries f.constraints ++ defaultEntry f ++
      [("allOf", Value.list [Value.obj [("$ref", Value.str (refPath e))]])]) := by
  unfold fieldProperty
  cases hft : f.ftype with
  | enumeration e2 =>
      rw [hft] at h
      rw [ColType.enumeration.inj h]
  | integer => rw [hft] at h; exact ColType.noConfusion h
  | text lo => rw [hft] at h; exact ColType.noConfusion h
  | datetime => rw [hft] at h; exact ColType.noConfusion h
  | array it => rw [hft] at h; exact ColType.noConfusion h

/-- A static non-null default materializes as the `default` entry. -/
theorem defaultEntry_of_value (f : FieldSpec) (v : Value)
    (hv : f.fdefault = FieldDefault.value v) (hn : ¬ v = Value.null) :
    defaultEntry f = [("default", v)] := by
  unfold defaultEntry
  rw [hv]
  cases v with
  | null => exact absurd rfl hn
  | int n => rfl
  | str s => rfl
  | bool b => rfl
  | list vs => rfl
  | obj kvs => rfl

/-- A field with no static default contributes no `default` entry. -/
theorem defaultEntry_of_not_value (f : FieldSpec)
    (h : ∀ v, ¬ f.fdefault = FieldDefault.value v) : defaultEntry f = [] := by
  unfold defaultEntry
  cases hd : f.fdefault with
  | value v => exact absurd hd (h v)
  | required => rfl
  | factory g => rfl

/-- A static non-null default surfaces in the schema property, for every
field type. -/
theorem mem_default_fieldProperty (f : FieldSpec) (v : Value)
    (hdef : f.fdefault = FieldDefault.value v) (hn : ¬ v = Value.null) :
    ("default", v) ∈ fieldProperty f := by
  have hde := defaultEntry_of_value f v hdef hn
  by_cases he : ∃ e, f.ftype = ColType.enumeration e
  · obtain ⟨e, hft⟩ := he
    rw [fieldProperty_of_enum f e hft, hde]
    exact List.mem_append_right _
      (List.mem_append_left _ (List.mem_append_right _ (List.mem_cons_self _ _)))
  · rw [fieldProperty_of_not_enum f (fun e h => he ⟨e, h⟩), hde]
    exact List.mem_cons_of_mem _
      (List.mem_append_left _ (List.mem_append_right _ (List.mem_cons_self _ _)))

/-- Every mapped constraint entry surfaces in the schema property, for
every field type (enumeration fields included). -/
theorem mem_constraintEntries_fieldProperty (f : FieldSpec) (k : String) (v : Value)
    (k2 : String) (hkv : (k, v) ∈ f.constraints) (hsk : schemaKeyword k = some k2) :
    (k2, v) ∈ fieldProperty f := by
  have hce : (k2, v) ∈ constraintEntries f.constraints := by
    unfold constraintEntries
    exact List.mem_filterMap.mpr ⟨(k, v), hkv, by simp [hsk]⟩
  by_cases he : ∃ e, f.ftype = ColType.enumeration e
  · obtain ⟨e, hft⟩ := he
    rw [fieldProperty_of_enum f e hft]
    exact List.mem_append_right _
      (List.mem_append_left _ (List.mem_append_left _ hce))
  · rw [fieldProperty_of_not_enum f (fun e h => he ⟨e, h⟩)]
    exact List.mem_cons_of_mem _ (List.mem_append_left _ (List.mem_append_left _ hce))

theorem find?_eq_none_of_lookupInfo (xs : FieldKwargs) (k : String)
    (h : lookupInfo xs k = none) : xs.find? (fun p => p.1 == k) = none := by
  unfold lookupInfo at h
  cases hf : xs.find? (fun p => p.1 == k) with
  | none => rfl
  | some q => rw [hf] at h; exact absurd h (by simp)

/-- No recognized key other than `default` itself surfaces as the `default`
keyword. -/
theorem schemaKeyword_default_inv (k k2 : String) (h : schemaKeyword k = some k2)
    (hk : ¬ k = "default") : ¬ k2 = "default" := by
  intro hd
  subst hd
  unfold schemaKeyword at h
  by_cases h1 : k = "ge"
  · rw [if_pos h1] at h; exact absurd (Option.some.inj h) (by decide)
  rw [if_neg h1] at h
  by_cases h2 : k = "gt"
  · rw [if_pos h2] at h; exact absurd (Option.some.inj h) (by decide)
  rw [if_neg h2] at h
  by_cases h3 : k = "le"
  · rw [if_pos h3] at h; exact absurd (Option.some.inj h) (by decide)
  rw [if_neg h3] at h
  by_cases h4 : k = "lt"
  · rw [if_pos h4] at h; exact absurd (Option.some.inj h) (by decide)
  rw [if_neg h4] at h
  by_cases h5 : k = "multiple_of"
  · rw [if_pos h5] at h; exact absurd (Option.some.inj h) (by decide)
  rw [if_neg h5] at h
  by_cases h6 : k = "min_items"
  · rw [if_pos h6] at h; exact absurd (Option.some.inj h) (by decide)
  rw [if_neg h6] at h
  by_cases h7 : k = "max_items"
  · rw [if_pos h7] at h; exact absurd (Option.some.inj h) (by decide)
  rw [if_neg h7] at h
  by_cases h8 : k = "min_length"
  · rw [if_pos h8] at h; exact absurd (Option.some.inj h) (by decide)
  rw [if_neg h8] at h
  by_cases h9 : k = "max_length"
  · rw [if_pos h9] at h; exact absurd (Option.some.inj h) (by decide)
  rw [if_neg h9] at h
  by_cases h10 : k = "regex"
  · rw [if_pos h10] at h; exact absurd (Option.some.inj h) (by decide)
  rw [if_neg h10] at h
  by_cases h11 : k = "alias"
  · rw [if_pos h11] at h; exact Option.noConfusion h
  rw [if_neg h11] at h
  by_cases h12 : k = "const"
  · rw [if_pos h12] at h; exact Option.noConfusion h
  rw [if_neg h12] at h
  by_cases h13 : k = "title"
  · rw [if_pos h13] at h; exact Option.noConfusion h
  rw [if_neg h13] at h
  exact hk (Option.some.inj h)

/-- No recognized key ever surfaces as the `title` keyword through the
mapping (`title` itself is handled separately and maps to no keyword). -/
theorem schemaKeyword_ne_title (k k2 : String) (h : schemaKeyword k = some k2) :
    ¬ k2 = "title" := by
  intro hd
  subst hd
  unfold schemaKeyword at h
  by_cases h1 : k = "ge"
  · rw [if_pos h1] at h; exact absurd (Option.some.inj h) (by decide)
  rw [if_neg h1] at h
  by_cases h2 : k = "gt"
  · rw [if_pos h2] at h; exact absurd (Option.some.inj h) (by decide)
  rw [if_neg h2] at h
  by_cases h3 : k = "le"
  · rw [if_pos h3] at h; exact absurd (Option.some.inj h) (by decide)
  rw [if_neg h3] at h
  by_cases h4 : k = "lt"
  · rw [if_pos h4] at h; exact absurd (Option.some.inj h) (by decide)
  rw [if_neg h4] at h
  by_cases h5 : k = "multiple_of"
  · rw [if_pos h5] at h; exact absurd (Option.some.inj h) (by decide)
  rw [if_neg h5] at h
  by_cases h6 : k = "min_items"
  · rw [if_pos h6] at h; exact absurd (Option.some.inj h) (by decide)
  rw [if_neg h6] at h
  by_cases h7 : k = "max_items"
  · rw [if_pos h7] at h; exact absurd (Option.some.inj h) (by decide)
  rw [if_neg h7] at h
  by_cases h8 : k = "min_length"
  · rw [if_pos h8] at h; exact absurd (Option.some.inj h) (by decide)
  rw [if_neg h8] at h
  by_cases h9 : k = "max_length"
  · rw [if_pos h9] at h; exact absurd (Option.some.inj h) (by decide)
  rw [if_neg h9] at h
  by_cases h10 : k = "regex"
  · rw [if_pos h10] at h; exact absurd (Option.some.inj h) (by decide)
  rw [if_neg h10] at h
  by_cases h11 : k = "alias"
  · rw [if_pos h11] at h; exact Option.noConfusion h
  rw [if_neg h11] at h
  by_cases h12 : k = "const"
  · rw [if_pos h12] at h; exact Option.noConfusion h
  rw [if_neg h12] at h
  by_cases h13 : k = "title"
  · rw [if_pos h13] at h; exact Option.noConfusion h
  rw [if_neg h13] at h
  exact h13 (Option.some.inj h)

/-- The mapped keyword entries never carry a `title` key. -/
theorem lookupInfo_constraintEntries_title (cs : FieldKwargs) :
    lookupInfo (constraintEntries cs) "title" = none := by
  apply lookupInfo_eq_none
  intro p hp
  obtain ⟨q, hq, hmap⟩ := List.mem_filterMap.mp hp
  cases hsk : schemaKeyword q.1 with
  | none => rw [hsk] at hmap; exact absurd hmap (by simp)
  | some k2 =>
      rw [hsk] at hmap
      have hpq : p = (k2, q.2) := by simpa using hmap.symm
      have hk2 := schemaKeyword_ne_title q.1 k2 hsk
      rw [hpq]
      simpa using hk2

/-- The default entry never carries a key other than `default`. -/
theorem defaultEntry_keys (f : FieldSpec) (p : String × Value)
    (h : p ∈ defaultEntry f) : p.1 = "default" := by
  unfold defaultEntry at h
  cases hd : f.fdefault with
  | required => rw [hd] at h; exact absurd h (by simp)
  | factory g => rw [hd] at h; exact absurd h (by simp)
  | value v =>
      rw [hd] at h
      cases v with
      | null => exact absurd h (by simp)
      | int n => rw [List.mem_singleton.mp h]
      | str s => rw [List.mem_singleton.mp h]
      | bool b => rw [List.mem_singleton.mp h]
      | list vs => rw [List.mem_singleton.mp h]
      | obj kvs => rw [List.mem_singleton.mp h]

/-- The explicit-title entry carries no key besides `title`. -/
theorem lookupInfo_explicitTitle_ne (f : FieldSpec) (k : String)
    (h : ("title" == k) = false) : lookupInfo (explicitTitle f) k = none := by
  unfold explicitTitle
  cases lookupInfo f.constraints "title" with
  | none => rfl
  | some v =>
      unfold lookupInfo
      rw [List.find?_cons_of_neg]
      · rfl
      · simp [h]

/-- If the constraint set carries no `default` key, the mapped keyword
entries carry none either. -/
theorem lookupInfo_constraintEntries_default (cs : FieldKwargs)
    (h : lookupInfo cs "default" = none) :
    lookupInfo (constraintEntries cs) "default" = none := by
  apply lookupInfo_eq_none
  intro p hp
  obtain ⟨q, hq, hmap⟩ := List.mem_filterMap.mp hp
  cases hsk : schemaKeyword q.1 with
  | none => rw [hsk] at hmap; exact absurd hmap (by simp)
  | some k2 =>
      rw [hsk] at hmap
      have hpq : p = (k2, q.2) := by simpa using hmap.symm
      have hq1 : ¬ q.1 = "default" := by
        intro hqd
        have hnone := List.find?_eq_none.mp (find?_eq_none_of_lookupInfo cs "default" h) q hq
        rw [hqd] at hnone
        simp at hnone
      have hk2 := schemaKeyword_default_inv q.1 k2 hsk hq1
      rw [hpq]
      simpa using hk2

theorem lookupInfo_cons_ne (k2 : String) (v : Value) (rest : FieldKwargs) (k : String)
    (h : (k2 == k) = false) : lookupInfo ((k2, v) :: rest) k = lookupInfo rest k := by
  unfold lookupInfo
  rw [List.find?_cons_of_neg]
  simp [h]

/-- A field with no static default and no `default` metadata key has no
`default` keyword in its schema property. -/
theorem lookup_default_fieldProperty_none (f : FieldSpec)
    (hfd : ∀ v, ¬ f.fdefault = FieldDefault.value v)
    (hcs : lookupInfo f.constraints "default" = none) :
    lookupInfo (fieldProperty f) "default" = none := by
  have hde := defaultEntry_of_not_value f hfd
  by_cases he : ∃ e, f.ftype = ColType.enumeration e
  · obtain ⟨e, hft⟩ := he
    rw [fieldProperty_of_enum f e hft, hde, List.append_nil]
    rw [lookupInfo_append_left_none _ _ _ (lookupInfo_explicitTitle_ne f "default" (by decide))]
    rw [lookupInfo_append_left_none _ _ _ (lookupInfo_constraintEntries_default _ hcs)]
    rfl
  · rw [fieldProperty_of_not_enum f (fun e h => he ⟨e, h⟩), hde, List.append_nil]
    rw [lookupInfo_cons_ne "title" (fieldTitle f)
      (constraintEntries f.constraints ++ typeEntries f.ftype) "default" (by decide)]
    rw [lookupInfo_append_left_none _ _ _ (lookupInfo_constraintEntries_default _ hcs)]
    cases f.ftype <;> rfl

/-- The per-synthesis-run identity map keeps the collected enumeration names
distinct. -/
theorem collectEnums_names_nodup (fs : List FieldSpec) :
    ((collectEnums fs).map EnumType.ename).Nodup := by
  induction fs with
  | nil => exact List.nodup_nil
  | cons f fs ih =>
      unfold collectEnums
      cases hft : f.ftype with
      | enumeration e =>
          rw [List.map_cons]
          apply List.nodup_cons.mpr
          constructor
          · intro hmem
            obtain ⟨e2, he2, hee⟩ := List.mem_map.mp hmem
            have hkeep := (List.mem_filter.mp he2).2
            rw [hee] at hkeep
            simp at hkeep
          · exact List.Nodup.sublist ((List.filter_sublist _).map EnumType.ename) ih
      | integer => exact ih
      | text lo => exact ih
      | datetime => exact ih
      | array it => exact ih

/-- Every enumeration type referenced by a field is collected, provided
distinct referenced enumerations never share a name. -/
theorem mem_collectEnums (fs : List FieldSpec) (f : FieldSpec) (e : EnumType)
    (hf : f ∈ fs) (hft : f.ftype = ColType.enumeration e)
    (hinj : ∀ f1, f1 ∈ fs → ∀ e1, f1.ftype = ColType.enumeration e1 →
      e1.ename = e.ename → e1 = e) :
    e ∈ collectEnums fs := by
  induction fs with
  | nil => exact absurd hf (List.not_mem_nil f)
  | cons f0 fs ih =>
      unfold collectEnums
      cases hft0 : f0.ftype with
      | enumeration e0 =>
          rcases List.mem_cons.mp hf with hfe | hmem
          · subst hfe
            rw [hft] at hft0
            rw [← ColType.enumeration.inj hft0]
            exact List.mem_cons_self _ _
          · by_cases hee : e.ename = e0.ename
            · have he0 : e0 = e :=
                hinj f0 (List.mem_cons_self _ _) e0 hft0 hee.symm
              rw [he0]
              exact List.mem_cons_self _ _
            · apply List.mem_cons_of_mem
              apply List.mem_filter.mpr
              refine ⟨?_, by simp [hee]⟩
              exact ih hmem (fun f1 h1 e1 h2 h3 =>
                hinj f1 (List.mem_cons_of_mem f0 h1) e1 h2 h3)
      | integer =>
          rcases List.mem_cons.mp hf with hfe | hmem
          · subst hfe; rw [hft] at hft0; exact ColType.noConfusion hft0
          · exact ih hmem (fun f1 h1 e1 h2 h3 =>
              hinj f1 (List.mem_cons_of_mem f0 h1) e1 h2 h3)
      | text lo =>
          rcases List.mem_cons.mp hf with hfe | hmem
          · subst hfe; rw [hft] at hft0; exact ColType.noConfusion hft0
          · exact ih hmem (fun f1 h1 e1 h2 h3 =>
              hinj f1 (List.mem_cons_of_mem f0 h1) e1 h2 h3)
      | datetime =>
          rcases List.mem_cons.mp hf with hfe | hmem
          · subst hfe; rw [hft] at hft0; exact ColType.noConfusion hft0
          · exact ih hmem (fun f1 h1 e1 h2 h3 =>
              hinj f1 (List.mem_cons_of_mem f0 h1) e1 h2 h3)
      | array it =>
          rcases List.mem_cons.mp hf with hfe | hmem
          · subst hfe; rw [hft] at hft0; exact ColType.noConfusion hft0
          · exact ih hmem (fun f1 h1 e1 h2 h3 =>
              hinj f1 (List.mem_cons_of_mem f0 h1) e1 h2 h3)

/-- Replacing a stored value: after a successful assignment the exposed
key holds the new value. -/
theorem lookupInfo_map_update (inst : FieldKwargs) (fname : String) (v w : Value)
    (h : lookupInfo inst fname = some w) :
    lookupInfo (inst.map (fun p => if p.1 == fname then (fname, v) else p)) fname = some v := by
  induction inst with
  | nil => simp [lookupInfo] at h
  | cons p rest ih =>
      rw [List.map_cons]
      cases hb : (p.1 == fname) with
      | true =>
          simp only [hb, if_pos]
          unfold lookupInfo
          rw [List.find?_cons_of_pos]
          · rfl
          · simp
      | false =>
          simp only [hb, Bool.false_eq_true, if_neg, not_false_eq_true]
          unfold lookupInfo
          rw [List.find?_cons_of_neg]
          · apply ih
            unfold lookupInfo at h
            rw [List.find?_cons_of_neg] at h
            · exact h
            · simp [hb]
          · simp [hb]

/-! ### Claim theorems -/

/-- C1: for every column whose metadata bag declares a `max_length` differing
from the length declared on the column's bounded-string type, synthesis fails
with a `ConstraintConflictError` whose message names both conflicting values
(the message contains both rendered numbers); if metadata and the column type
declare the same length, no error is raised. -/
theorem length_conflict_spec (c : Column) (l : Nat) (mv : Int)
    (hd : declaredLength c.ctype = some l)
    (hm : lookupInfo c.info "max_length" = some (Value.int mv)) :
    (mv ≠ (l : Int) →
      make_field c = Except.error (SynthError.constraintConflict (conflictMessage mv l)) ∧
      ∃ pre mid post, conflictMessage mv l =
        pre ++ (toString mv ++ (mid ++ (toString l ++ post)))) ∧
    (mv = (l : Int) → ∃ f, make_field c = Except.ok f) := by
  have hchk : checkLengthConflict c =
      (if mv = (l : Int) then Except.ok ()
       else Except.error (SynthError.constraintConflict (conflictMessage mv l))) := by
    unfold checkLengthConflict
    rw [hd, hm]
  constructor
  · intro hne
    refine ⟨?_, "max_length (", ") differs from length set for column type (",
      "). Either remove max_length from info (preferred) or set them to equal values", rfl⟩
    unfold make_field
    rw [hchk, if_neg hne]
  · intro heq
    refine ⟨{ name := c.name, ftype := c.ctype, optional := c.nullable || c.primary_key,
              fdefault := resolveDefault c,
              constraints := overlay (intrinsicConstraints c.ctype) c.info }, ?_⟩
    unfold make_field
    rw [hchk, if_pos heq]

/-- Witness for C1 at the test's input, including the exact pinned message. -/
theorem length_conflict_spec_witness :
    (declaredLength conflictCol.ctype = some 64 ∧
      lookupInfo conflictCol.info "max_length" = some (Value.int 65) ∧
      conflictMessage 65 64 =
        "max_length (65) differs from length set for column type (64)." ++
          " Either remove max_length from info (preferred) or set them to equal values") ∧
    ((65 : Int) ≠ ((64 : Nat) : Int) →
      make_field conflictCol =
        Except.error (SynthError.constraintConflict (conflictMessage 65 64)) ∧
      ∃ pre mid post, conflictMessage 65 64 =
        pre ++ (toString (65 : Int) ++ (mid ++ (toString (64 : Nat) ++ post)))) ∧
    ((65 : Int) = ((64 : Nat) : Int) → ∃ f, make_field conflictCol = Except.ok f) :=
  ⟨⟨rfl, rfl, rfl⟩,
    (length_conflict_spec conflictCol 64 65 rfl rfl).1,
    (length_conflict_spec conflictCol 64 65 rfl rfl).2⟩

/-- C3: for every column with the primary-key flag set, the synthesized field
is required — regardless of any declared default and of nullability: it must
be supplied at construction, and it appears in the schema's required list. -/
theorem primary_key_always_required (c : Column) (f : FieldSpec)
    (hpk : c.primary_key = true) (hf : make_field c = Except.ok f) :
    f.fdefault = FieldDefault.required ∧
    (∀ kwargs tick, lookupInfo kwargs (exposedName f) = none →
      constructField f kwargs tick = Except.error ("field required: " ++ f.name)) ∧
    (∀ m : ModelSpec, f ∈ m.fields → exposedName f ∈ (modelSchema m).required) := by
  have hfe := make_field_ok c f hf
  have hreq : f.fdefault = FieldDefault.required := by
    rw [hfe]
    show resolveDefault c = FieldDefault.required
    unfold resolveDefault
    rw [hpk]
    rfl
  refine ⟨hreq, ?_, ?_⟩
  · intro kwargs tick hnone
    unfold constructField
    rw [hnone, hreq]
  · intro m hmem
    have hfil : f ∈ m.fields.filter (fun g => FieldDefault.isRequired g.fdefault) :=
      List.mem_filter.mpr ⟨hmem, by rw [hreq]; rfl⟩
    exact List.mem_map_of_mem exposedName hfil

/-- Witness for C3: the default `7` is ignored and the field is required. -/
theorem primary_key_always_required_witness :
    pkCol.primary_key = true ∧ make_field pkCol = Except.ok pkField ∧
    (pkField.fdefault = FieldDefault.required ∧
      (∀ kwargs tick, lookupInfo kwargs (exposedName pkField) = none →
        constructField pkField kwargs tick = Except.error ("field required: " ++ pkField.name)) ∧
      (∀ m : ModelSpec, pkField ∈ m.fields → exposedName pkField ∈ (modelSchema m).required)) :=
  ⟨rfl, rfl, primary_key_always_required pkCol pkField rfl rfl⟩

/-- C4: for every column with a declared bounded-string length and no
`max_length` in its metadata bag, the synthesized field carries a
`max_length` constraint equal to the declared length exactly, surfaced in the
schema property as `maxLength`. -/
theorem declared_length_is_max_length (c : Column) (l : Nat) (f : FieldSpec)
    (hd : declaredLength c.ctype = some l)
    (hni : lookupInfo c.info "max_length" = none)
    (hf : make_field c = Except.ok f) :
    ("max_length", Value.int l) ∈ f.constraints ∧
    lookupInfo f.constraints "max_length" = some (Value.int l) ∧
    ("maxLength", Value.int l) ∈ fieldProperty f := by
  have hfe := make_field_ok c f hf
  have hcs : f.constraints = ("max_length", Value.int l) :: c.info := by
    rw [hfe]
    show overlay (intrinsicConstraints c.ctype) c.info = _
    unfold overlay intrinsicConstraints
    rw [hd]
    simp [hni]
  have hct : c.ctype = ColType.text (some l) := by
    cases hc : c.ctype with
    | text lo => rw [hc] at hd; simp only [declaredLength] at hd; rw [hd]
    | integer => rw [hc] at hd; exact absurd hd (by simp [declaredLength])
    | datetime => rw [hc] at hd; exact absurd hd (by simp [declaredLength])
    | enumeration e => rw [hc] at hd; exact absurd hd (by simp [declaredLength])
    | array it => rw [hc] at hd; exact absurd hd (by simp [declaredLength])
  have hft : f.ftype = ColType.text (some l) := by rw [hfe]; exact hct
  refine ⟨?_, ?_, ?_⟩
  · rw [hcs]; exact List.mem_cons_self _ _
  · rw [hcs]; rfl
  · rw [fieldProperty_of_not_enum f (by rw [hft]; intro e he; exact ColType.noConfusion he)]
    apply List.mem_cons_of_mem
    apply List.mem_append_left
    apply List.mem_append_left
    rw [hcs]
    unfold constraintEntries
    exact List.mem_filterMap.mpr ⟨("max_length", Value.int l), List.mem_cons_self _ _, rfl⟩

/-- Witness for C4 at the test's column. -/
theorem declared_length_is_max_length_witness :
    declaredLength lenCol.ctype = some 64 ∧
    lookupInfo lenCol.info "max_length" = none ∧
    make_field lenCol = Except.ok lenField ∧
    (("max_length", Value.int 64) ∈ lenField.constraints ∧
      lookupInfo lenField.constraints "max_length" = some (Value.int 64) ∧
      ("maxLength", Value.int 64) ∈ fieldProperty lenField) :=
  ⟨rfl, rfl, rfl, declared_length_is_max_length lenCol 64 lenField rfl rfl rfl⟩

/-- C5: default resolution for non-primary-key columns — a concrete value
becomes the static default (construction without the field yields it, and it
appears under `default` in the schema property); with no default the field is
required unless nullable, in which case it defaults to the null value and is
not listed as required. -/
theorem default_resolution (c : Column) (f : FieldSpec)
    (hpk : c.primary_key = false) (hf : make_field c = Except.ok f) :
    (∀ v, c.cdefault = ColumnDefault.value v →
      f.fdefault = FieldDefault.value v ∧
      (∀ kwargs tick, lookupInfo kwargs (exposedName f) = none →
        constructField f kwargs tick = Except.ok v) ∧
      (¬ v = Value.null → ("default", v) ∈ fieldProperty f)) ∧
    (c.cdefault = ColumnDefault.absent →
      (c.nullable = false → f.fdefault = FieldDefault.required) ∧
      (c.nullable = true →
        f.fdefault = FieldDefault.value Value.null ∧
        FieldDefault.isRequired f.fdefault = false ∧
        (∀ kwargs tick, lookupInfo kwargs (exposedName f) = none →
          constructField f kwargs tick = Except.ok Value.null) ∧
        (∀ m : ModelSpec, f ∈ m.fields →
          (∀ g, g ∈ m.fields → exposedName g = exposedName f → g = f) →
          ¬ exposedName f ∈ (modelSchema m).required))) := by
  have hfe := make_field_ok c f hf
  constructor
  · intro v hv
    have hdef : f.fdefault = FieldDefault.value v := by
      rw [hfe]
      show resolveDefault c = _
      unfold resolveDefault
      rw [hpk, hv]
      rfl
    refine ⟨hdef, ?_, fun hn => mem_default_fieldProperty f v hdef hn⟩
    intro kwargs tick hnone
    unfold constructField
    rw [hnone, hdef]
  · intro habs
    constructor
    · intro hnul
      rw [hfe]
      show resolveDefault c = _
      unfold resolveDefault
      rw [hpk, habs, hnul]
      rfl
    · intro hnul
      have hdef : f.fdefault = FieldDefault.value Value.null := by
        rw [hfe]
        show resolveDefault c = _
        unfold resolveDefault
        rw [hpk, habs, hnul]
        rfl
      refine ⟨hdef, by rw [hdef]; rfl, ?_, ?_⟩
      · intro kwargs tick hnone
        unfold constructField
        rw [hnone, hdef]
      · intro m hmem hinj hreq
        have hreq2 : exposedName f ∈
            (m.fields.filter (fun g => FieldDefault.isRequired g.fdefault)).map exposedName := hreq
        obtain ⟨g, hg, hge⟩ := List.mem_map.mp hreq2
        have hgf := List.mem_filter.mp hg
        have hgeq : g = f := hinj g hgf.1 hge
        have hgr := hgf.2
        rw [hgeq, hdef] at hgr
        simp [FieldDefault.isRequired] at hgr

/-- Witness for C5 at the column of `test_default_comes_from_column_definition`:
the static default `"default"` is adopted, drives construction, and appears in
the schema. -/
theorem default_resolution_witness :
    defCol.primary_key = false ∧
    defCol.cdefault = ColumnDefault.value (Value.str "default") ∧
    make_field defCol = Except.ok defField ∧
    (defField.fdefault = FieldDefault.value (Value.str "default") ∧
      (∀ kwargs tick, lookupInfo kwargs (exposedName defField) = none →
        constructField defField kwargs tick = Except.ok (Value.str "default")) ∧
      (¬ Value.str "default" = Value.null →
        ("default", Value.str "default") ∈ fieldProperty defField)) :=
  ⟨rfl, rfl, rfl, (default_resolution defCol defField rfl rfl).1 (Value.str "default") rfl⟩

/-- C6: for every column whose default is a zero-argument callable, the
synthesized field uses a default factory invoked at each instance
construction (so successive constructions observe the factory's value at
their own tick; a monotone, time-based factory yields non-decreasing values
across successive constructions), and no static `default` appears in the
schema property. -/
theorem callable_default_factory (c : Column) (g : Nat → Value) (f : FieldSpec)
    (hpk : c.primary_key = false) (hcall : c.cdefault = ColumnDefault.callable g)
    (hinfo : lookupInfo c.info "default" = none)
    (hf : make_field c = Except.ok f) :
    f.fdefault = FieldDefault.factory g ∧
    (∀ kwargs tick, lookupInfo kwargs (exposedName f) = none →
      constructField f kwargs tick = Except.ok (g tick)) ∧
    (∀ h : Nat → Int, g = (fun n => Value.int (h n)) → Monotone h →
      ∀ t1 t2 : Nat, t1 ≤ t2 →
        constructField f [] t1 = Except.ok (Value.int (h t1)) ∧
        constructField f [] t2 = Except.ok (Value.int (h t2)) ∧ h t1 ≤ h t2) ∧
    lookupInfo (fieldProperty f) "default" = none := by
  have hfe := make_field_ok c f hf
  have hdef : f.fdefault = FieldDefault.factory g := by
    rw [hfe]
    show resolveDefault c = _
    unfold resolveDefault
    rw [hpk, hcall]
    rfl
  have hcf : ∀ kwargs tick, lookupInfo kwargs (exposedName f) = none →
      constructField f kwargs tick = Except.ok (g tick) := by
    intro kwargs tick hnone
    unfold constructField
    rw [hnone, hdef]
  refine ⟨hdef, hcf, ?_, ?_⟩
  · intro h hg hmono t1 t2 ht
    refine ⟨?_, ?_, hmono ht⟩
    · rw [hcf [] t1 rfl, hg]
    · rw [hcf [] t2 rfl, hg]
  · apply lookup_default_fieldProperty_none
    · intro v hv
      rw [hdef] at hv
      exact FieldDefault.noConfusion hv
    · rw [hfe]
      show lookupInfo (overlay (intrinsicConstraints c.ctype) c.info) "default" = none
      rw [lookupInfo_overlay_of_ne c "default" (by decide)]
      exact hinfo

/-- Witness for C6 at a tick-reading factory column: constructions at ticks 0
and 1 observe the factory's values in order, and the schema property carries
no static default. -/
theorem callable_default_factory_witness :
    factCol.primary_key = false ∧
    factCol.cdefault = ColumnDefault.callable (fun n => Value.int n) ∧
    lookupInfo factCol.info "default" = none ∧
    make_field factCol = Except.ok factField ∧
    (constructField factField [] 0 = Except.ok (Value.int ((0 : Nat) : Int)) ∧
      constructField factField [] 1 = Except.ok (Value.int ((1 : Nat) : Int)) ∧
      ((0 : Nat) : Int) ≤ ((1 : Nat) : Int)) ∧
    lookupInfo (fieldProperty factField) "default" = none :=
  ⟨rfl, rfl, rfl, rfl,
    (callable_default_factory factCol (fun n => Value.int n) factField rfl rfl rfl rfl).2.2.1
      (fun n => (n : Int)) rfl (fun _ _ hab => Int.ofNat_le.mpr hab) 0 1 (Nat.zero_le 1),
    (callable_default_factory factCol (fun n => Value.int n) factField rfl rfl rfl rfl).2.2.2⟩

/-- C7: in the synthesized schema there is exactly one `definitions` entry
per distinct referenced enumeration type (names are deduplicated), every
enumeration field references its definition via `$ref`, and the definition's
`enum` values are the declared member values in declaration order.  Distinct
referenced enumeration types are assumed not to share a name (same-named
distinct source enumerations would collide in the identity map). -/
theorem enum_definitions_deduplicated (name : String) (cfg : Config) (cols : List Column)
    (m : ModelSpec) (hm : sqlalchemy_to_pydantic name cfg cols = Except.ok m)
    (hinj : ∀ f1, f1 ∈ m.fields → ∀ e1, f1.ftype = ColType.enumeration e1 →
      ∀ f2, f2 ∈ m.fields → ∀ e2, f2.ftype = ColType.enumeration e2 →
      e1.ename = e2.ename → e1 = e2) :
    ((modelSchema m).definitions.map Prod.fst).Nodup ∧
    (∀ f, f ∈ m.fields → ∀ e, f.ftype = ColType.enumeration e →
      (e.ename, enumDefinition e) ∈ (modelSchema m).definitions ∧
      ("allOf", Value.list [Value.obj [("$ref", Value.str ("#/definitions/" ++ e.ename))]])
        ∈ fieldProperty f ∧
      (∃ kvs, enumDefinition e = Value.obj kvs ∧
        lookupInfo kvs "enum" =
          some (Value.list (e.members.map (fun p => Value.str p.2))))) := by
  constructor
  · have hmap : (modelSchema m).definitions.map Prod.fst =
        (collectEnums m.fields).map EnumType.ename := by
      show ((collectEnums m.fields).map (fun e => (e.ename, enumDefinition e))).map Prod.fst = _
      rw [List.map_map]
      rfl
    rw [hmap]
    exact collectEnums_names_nodup m.fields
  · intro f hf e hft
    have hmem := mem_collectEnums m.fields f e hf hft
      (fun f1 h1 e1 h2 h3 => hinj f1 h1 e1 h2 f hf e hft h3)
    refine ⟨List.mem_map_of_mem _ hmem, ?_, ⟨_, rfl, rfl⟩⟩
    rw [fieldProperty_of_enum f e hft]
    exact List.mem_append_right _ (List.mem_append_right _ (List.mem_cons_self _ _))

/-- Witness for C7: two columns referencing the `Bool` enumeration of
`test_enum` yield one `definitions` entry, referenced from both fields. -/
theorem enum_definitions_deduplicated_witness :
    sqlalchemy_to_pydantic "Test" { validate_assignment := false } [enumCol1, enumCol2] =
      Except.ok enumModel ∧
    (modelSchema enumModel).definitions = [("Bool", enumDefinition boolEnum)] ∧
    (((modelSchema enumModel).definitions.map Prod.fst).Nodup ∧
      (∀ f, f ∈ enumModel.fields → ∀ e, f.ftype = ColType.enumeration e →
        (e.ename, enumDefinition e) ∈ (modelSchema enumModel).definitions ∧
        ("allOf", Value.list [Value.obj [("$ref", Value.str ("#/definitions/" ++ e.ename))]])
          ∈ fieldProperty f ∧
        (∃ kvs, enumDefinition e = Value.obj kvs ∧
          lookupInfo kvs "enum" =
            some (Value.list (e.members.map (fun p => Value.str p.2)))))) := by
  have hinj : ∀ f1, f1 ∈ enumModel.fields → ∀ e1, f1.ftype = ColType.enumeration e1 →
      ∀ f2, f2 ∈ enumModel.fields → ∀ e2, f2.ftype = ColType.enumeration e2 →
      e1.ename = e2.ename → e1 = e2 := by
    intro f1 h1 e1 he1 f2 h2 e2 he2 _
    have hb1 : e1 = boolEnum := by
      rcases List.mem_cons.mp h1 with h | h
      · subst h; exact (ColType.enumeration.inj he1).symm
      · rcases List.mem_cons.mp h with h2c | h2c
        · subst h2c; exact (ColType.enumeration.inj he1).symm
        · exact absurd h2c (List.not_mem_nil f1)
    have hb2 : e2 = boolEnum := by
      rcases List.mem_cons.mp h2 with h | h
      · subst h; exact (ColType.enumeration.inj he2).symm
      · rcases List.mem_cons.mp h with h2c | h2c
        · subst h2c; exact (ColType.enumeration.inj he2).symm
        · exact absurd h2c (List.not_mem_nil f2)
    rw [hb1, hb2]
  exact ⟨rfl, rfl,
    enum_definitions_deduplicated "Test" { validate_assignment := false }
      [enumCol1, enumCol2] enumModel rfl hinj⟩

/-- C8: for every string column with no intrinsic declared length whose
metadata bag carries a `max_length` key, synthesis succeeds (no hidden
default-length assumption, no conflict error) and the metadata value is
adopted as the field's `max_length`, surfaced as `maxLength`. -/
theorem metadata_max_length_adopted (c : Column) (v : Value)
    (ht : c.ctype = ColType.text none)
    (hm : lookupInfo c.info "max_length" = some v) :
    (∃ f, make_field c = Except.ok f) ∧
    (∀ f, make_field c = Except.ok f →
      lookupInfo f.constraints "max_length" = some v ∧
      ("maxLength", v) ∈ fieldProperty f) := by
  have hchk : checkLengthConflict c = Except.ok () := by
    unfold checkLengthConflict
    rw [ht, hm]
    rfl
  constructor
  · refine ⟨{ name := c.name, ftype := c.ctype, optional := c.nullable || c.primary_key,
              fdefault := resolveDefault c,
              constraints := overlay (intrinsicConstraints c.ctype) c.info }, ?_⟩
    unfold make_field
    rw [hchk]
  · intro f hf
    have hfe := make_field_ok c f hf
    have hcs : lookupInfo f.constraints "max_length" = some v := by
      rw [hfe]
      show lookupInfo (overlay (intrinsicConstraints c.ctype) c.info) "max_length" = some v
      rw [ht]
      exact hm
    have hft : f.ftype = ColType.text none := by rw [hfe]; exact ht
    refine ⟨hcs, ?_⟩
    rw [fieldProperty_of_not_enum f (by rw [hft]; intro e he; exact ColType.noConfusion he)]
    apply List.mem_cons_of_mem
    apply List.mem_append_left
    apply List.mem_append_left
    unfold constraintEntries
    exact List.mem_filterMap.mpr ⟨("max_length", v), lookupInfo_mem _ _ _ hcs, rfl⟩

/-- Witness for C8 at a `Text` column carrying `max_length=64` metadata. -/
theorem metadata_max_length_adopted_witness :
    textCol.ctype = ColType.text none ∧
    lookupInfo textCol.info "max_length" = some (Value.int 64) ∧
    ((∃ f, make_field textCol = Except.ok f) ∧
      (∀ f, make_field textCol = Except.ok f →
        lookupInfo f.constraints "max_length" = some (Value.int 64) ∧
        ("maxLength", Value.int 64) ∈ fieldProperty f)) :=
  ⟨rfl, rfl, metadata_max_length_adopted textCol (Value.int 64) rfl rfl⟩

/-- C9 counterexample: an enumeration field with no title metadata gets no
title keyword at all in its schema property (pinned by `test_enum`, where the
`boolean` property is only `default` plus `allOf`), refuting the claim that
every synthesized field's property carries a derived title. -/
theorem title_derivation_counterexample :
    make_field enumCol1 = Except.ok enumField1 ∧
    lookupInfo enumCol1.info "title" = none ∧
    lookupInfo (fieldProperty enumField1) "title" = none ∧
    ¬ lookupInfo (fieldProperty enumField1) "title" =
        some (Value.str (derivedTitle enumCol1.name)) := by
  refine ⟨rfl, rfl, rfl, ?_⟩
  intro h
  rw [show lookupInfo (fieldProperty enumField1) "title" = none from rfl] at h
  exact Option.noConfusion h

/-- C9 (amended): for every synthesized non-enumeration field whose metadata
carries no title key, the schema property's title is derived from the column
name by replacing underscores with spaces and capitalizing each word; a
metadata title is used verbatim instead, for every field, enumeration fields
included; an enumeration field with no metadata title gets no derived title
(its property carries no title keyword, as `test_enum` pins). -/
theorem title_derivation (c : Column) (f : FieldSpec)
    (hf : make_field c = Except.ok f) :
    ((∀ e, ¬ c.ctype = ColType.enumeration e) → lookupInfo c.info "title" = none →
      lookupInfo (fieldProperty f) "title" = some (Value.str (derivedTitle c.name))) ∧
    (∀ v, lookupInfo c.info "title" = some v →
      lookupInfo (fieldProperty f) "title" = some v) ∧
    (∀ e, c.ctype = ColType.enumeration e → lookupInfo c.info "title" = none →
      lookupInfo (fieldProperty f) "title" = none) ∧
    derivedTitle "dynamic_column" = "Dynamic Column" := by
  have hfe := make_field_ok c f hf
  have hcst : lookupInfo f.constraints "title" = lookupInfo c.info "title" := by
    rw [hfe]
    show lookupInfo (overlay (intrinsicConstraints c.ctype) c.info) "title" = _
    exact lookupInfo_overlay_of_ne c "title" (by decide)
  refine ⟨?_, ?_, ?_, rfl⟩
  · intro hne hnone
    have hfne : ∀ e, ¬ f.ftype = ColType.enumeration e := by
      intro e he
      rw [hfe] at he
      exact hne e he
    rw [fieldProperty_of_not_enum f hfne]
    show some (fieldTitle f) = _
    unfold fieldTitle
    rw [hcst, hnone, hfe]
  · intro v hv
    have hct : lookupInfo f.constraints "title" = some v := by
      rw [hcst]
      exact hv
    by_cases he : ∃ e, f.ftype = ColType.enumeration e
    · obtain ⟨e, hft⟩ := he
      have het : explicitTitle f = [("title", v)] := by
        unfold explicitTitle
        rw [hct]
      rw [fieldProperty_of_enum f e hft, het]
      rfl
    · rw [fieldProperty_of_not_enum f (fun e h => he ⟨e, h⟩)]
      show some (fieldTitle f) = _
      unfold fieldTitle
      rw [hct]
  · intro e hct hnone
    have hft : f.ftype = ColType.enumeration e := by
      rw [hfe]
      exact hct
    have hctn : lookupInfo f.constraints "title" = none := by
      rw [hcst]
      exact hnone
    have het : explicitTitle f = [] := by
      unfold explicitTitle
      rw [hctn]
    have hden : lookupInfo (defaultEntry f) "title" = none := by
      apply lookupInfo_eq_none
      intro p hp
      rw [defaultEntry_keys f p hp]
      simp
    rw [fieldProperty_of_enum f e hft, het, List.nil_append, List.append_assoc]
    rw [lookupInfo_append_left_none _ _ _ (lookupInfo_constraintEntries_title f.constraints)]
    rw [lookupInfo_append_left_none _ _ _ hden]
    rfl

/-- Witness for C9 at the column of `test_lambda_as_default_factory` (derived
title `Dynamic Column`) and at an enumeration column with an explicit
metadata title (used verbatim). -/
theorem title_derivation_witness :
    make_field dynCol = Except.ok dynField ∧
    (((∀ e, ¬ dynCol.ctype = ColType.enumeration e) →
        lookupInfo dynCol.info "title" = none →
        lookupInfo (fieldProperty dynField) "title" =
          some (Value.str (derivedTitle dynCol.name))) ∧
      (∀ v, lookupInfo dynCol.info "title" = some v →
        lookupInfo (fieldProperty dynField) "title" = some v) ∧
      (∀ e, dynCol.ctype = ColType.enumeration e → lookupInfo dynCol.info "title" = none →
        lookupInfo (fieldProperty dynField) "title" = none) ∧
      derivedTitle "dynamic_column" = "Dynamic Column") ∧
    make_field titledEnumCol = Except.ok titledEnumField ∧
    lookupInfo titledEnumCol.info "title" = some (Value.str "Flag") ∧
    lookupInfo (fieldProperty titledEnumField) "title" = some (Value.str "Flag") :=
  ⟨rfl, title_derivation dynCol dynField rfl, rfl, rfl,
    (title_derivation titledEnumCol titledEnumField rfl).2.1 (Value.str "Flag") rfl⟩

/-- C10: for a model synthesized with a validation-on-assignment
configuration, assigning to a field whose metadata mutability flag is false
raises an error and the instance state is unchanged (the field still holds
its previous value); a field whose flag is true accepts the reassignment and
afterwards holds the new value. -/
theorem allow_mutation_enforced (name : String) (cfg : Config) (cols : List Column)
    (m : ModelSpec) (hm : sqlalchemy_to_pydantic name cfg cols = Except.ok m)
    (hcfg : cfg.validate_assignment = true)
    (f : FieldSpec) (fname : String)
    (hfind : m.fields.find? (fun g => g.name == fname) = some f)
    (inst : FieldKwargs) (w : Value) (hw : lookupInfo inst fname = some w) :
    (lookupInfo f.constraints "allow_mutation" = some (Value.bool false) →
      ∀ v, (∃ msg, assign m inst fname v = Except.error msg) ∧
        assignState m inst fname v = inst ∧
        lookupInfo (assignState m inst fname v) fname = some w) ∧
    (lookupInfo f.constraints "allow_mutation" = some (Value.bool true) →
      ∀ v, assign m inst fname v =
          Except.ok (inst.map (fun p => if p.1 == fname then (fname, v) else p)) ∧
        lookupInfo (assignState m inst fname v) fname = some v) := by
  have hmc : m.config = cfg := (sqlalchemy_to_pydantic_ok name cfg cols m hm).2.1
  have hred : ∀ v, assign m inst fname v =
      (if (m.config.validate_assignment && ! allowMutation f) = true then
        Except.error ("\"" ++ fname ++ "\" has allow_mutation set to False and cannot be assigned")
      else Except.ok (inst.map (fun p => if p.1 == fname then (fname, v) else p))) := by
    intro v
    unfold assign
    rw [hfind]
  constructor
  · intro hflag v
    have hmut : allowMutation f = false := by
      unfold allowMutation
      rw [hflag]
    have herr : assign m inst fname v = Except.error
        ("\"" ++ fname ++ "\" has allow_mutation set to False and cannot be assigned") := by
      rw [hred v, hmc, hcfg, hmut]
      rfl
    refine ⟨⟨_, herr⟩, ?_, ?_⟩
    · unfold assignState
      rw [herr]
    · unfold assignState
      rw [herr]
      exact hw
  · intro hflag v
    have hmut : allowMutation f = true := by
      unfold allowMutation
      rw [hflag]
    have hok : assign m inst fname v =
        Except.ok (inst.map (fun p => if p.1 == fname then (fname, v) else p)) := by
      rw [hred v, hmc, hcfg, hmut]
      rfl
    refine ⟨hok, ?_⟩
    unfold assignState
    rw [hok]
    exact lookupInfo_map_update inst fname v w hw

/-- Witness for C10 at the model of `test_allow_mutation`: assigning `1` to
the immutable `number` (previous value `0`) errors and leaves the state
unchanged; assigning `2` to the mutable `number_mut` succeeds. -/
theorem allow_mutation_enforced_witness :
    sqlalchemy_to_pydantic "Test" { validate_assignment := true } [mutCol, mutColTrue] =
      Except.ok mutModel ∧
    mutModel.fields.find? (fun g => g.name == "number") = some mutField ∧
    mutModel.fields.find? (fun g => g.name == "number_mut") = some mutFieldTrue ∧
    lookupInfo [("number", Value.int 0), ("number_mut", Value.int 1)] "number" =
      some (Value.int 0) ∧
    ((∃ msg, assign mutModel [("number", Value.int 0), ("number_mut", Value.int 1)]
        "number" (Value.int 1) = Except.error msg) ∧
      assignState mutModel [("number", Value.int 0), ("number_mut", Value.int 1)]
        "number" (Value.int 1) = [("number", Value.int 0), ("number_mut", Value.int 1)] ∧
      lookupInfo (assignState mutModel [("number", Value.int 0), ("number_mut", Value.int 1)]
        "number" (Value.int 1)) "number" = some (Value.int 0)) ∧
    (assign mutModel [("number", Value.int 0), ("number_mut", Value.int 1)]
        "number_mut" (Value.int 2) =
      Except.ok ([("number", Value.int 0), ("number_mut", Value.int 1)].map
        (fun p => if p.1 == "number_mut" then ("number_mut", Value.int 2) else p)) ∧
      lookupInfo (assignState mutModel [("number", Value.int 0), ("number_mut", Value.int 1)]
        "number_mut" (Value.int 2)) "number_mut" = some (Value.int 2)) :=
  ⟨rfl, rfl, rfl, rfl,
    (allow_mutation_enforced "Test" { validate_assignment := true } [mutCol, mutColTrue]
      mutModel rfl rfl mutField "number" rfl
      [("number", Value.int 0), ("number_mut", Value.int 1)] (Value.int 0) rfl).1
      rfl (Value.int 1),
    (allow_mutation_enforced "Test" { validate_assignment := true } [mutCol, mutColTrue]
      mutModel rfl rfl mutFieldTrue "number_mut" rfl
      [("number", Value.int 0), ("number_mut", Value.int 1)] (Value.int 1) rfl).2
      rfl (Value.int 2)⟩

/-- C2 counterexample: `alias` and `const` are recognized constraint keys,
yet neither passes through under its own name into the schema property —
`alias` instead renames the exposed property and `const` is dropped entirely
(pinned by the expected schema of `test_all_pydantic_attributes_from_info`). -/
theorem schema_keyword_mapping_counterexample :
    make_field constCol = Except.ok constField ∧
    ("alias", Value.str "text") ∈ constCol.info ∧
    ("const", Value.str "") ∈ constCol.info ∧
    lookupInfo (fieldProperty constField) "alias" = none ∧
    lookupInfo (fieldProperty constField) "const" = none ∧
    exposedName constField = "text" := by
  refine ⟨rfl, ?_, ?_, rfl, rfl, rfl⟩
  · exact List.mem_cons_self _ _
  · exact List.mem_cons_of_mem _ (List.mem_cons_self _ _)

/-- C2 (amended): schema introspection returns the model title and
`type: "object"`, one property per field under its exposed name, and for
every field (enumeration fields included) every constraint key surfaces 1:1
through the keyword mapping — `ge→minimum`, `gt→exclusiveMinimum`,
`le→maximum`, `lt→exclusiveMaximum`, `multiple_of→multipleOf`,
`min_items→minItems`, `max_items→maxItems`, `min_length→minLength`,
`max_length→maxLength`, `regex→pattern`, other recognized keys under their
own name — except that `alias` renames the exposed property instead and
`const` is not emitted. -/
theorem schema_keyword_mapping (name : String) (cfg : Config) (cols : List Column)
    (m : ModelSpec) (hm : sqlalchemy_to_pydantic name cfg cols = Except.ok m) :
    (modelSchema m).title = name ∧
    (modelSchema m).otype = "object" ∧
    (schemaKeyword "ge" = some "minimum" ∧
      schemaKeyword "gt" = some "exclusiveMinimum" ∧
      schemaKeyword "le" = some "maximum" ∧
      schemaKeyword "lt" = some "exclusiveMaximum" ∧
      schemaKeyword "multiple_of" = some "multipleOf" ∧
      schemaKeyword "min_items" = some "minItems" ∧
      schemaKeyword "max_items" = some "maxItems" ∧
      schemaKeyword "min_length" = some "minLength" ∧
      schemaKeyword "max_length" = some "maxLength" ∧
      schemaKeyword "regex" = some "pattern" ∧
      schemaKeyword "description" = some "description" ∧
      schemaKeyword "example" = some "example" ∧
      schemaKeyword "allow_mutation" = some "allow_mutation" ∧
      schemaKeyword "alias" = none ∧
      schemaKeyword "const" = none) ∧
    (∀ f, f ∈ m.fields → (exposedName f, fieldProperty f) ∈ (modelSchema m).properties) ∧
    (∀ f, f ∈ m.fields →
      ∀ k v k2, (k, v) ∈ f.constraints → schemaKeyword k = some k2 →
        (k2, v) ∈ fieldProperty f) := by
  refine ⟨(sqlalchemy_to_pydantic_ok name cfg cols m hm).1, rfl,
    ⟨rfl, rfl, rfl, rfl, rfl, rfl, rfl, rfl, rfl, rfl, rfl, rfl, rfl, rfl, rfl⟩, ?_, ?_⟩
  · intro f hf
    exact List.mem_map_of_mem _ hf
  · intro f hf k v k2 hkv hsk
    exact mem_constraintEntries_fieldProperty f k v k2 hkv hsk

/-- Witness for C2 at the model of `test_field_kwargs_used_as_info`: the
`ge=0` metadata surfaces as `minimum: 0`. -/
theorem schema_keyword_mapping_witness :
    sqlalchemy_to_pydantic "Test" { validate_assignment := false } [ageCol] =
      Except.ok ageModel ∧
    lookupInfo (fieldProperty ageField) "minimum" = some (Value.int 0) ∧
    ((modelSchema ageModel).title = "Test" ∧
      (modelSchema ageModel).otype = "object" ∧
      (schemaKeyword "ge" = some "minimum" ∧
        schemaKeyword "gt" = some "exclusiveMinimum" ∧
        schemaKeyword "le" = some "maximum" ∧
        schemaKeyword "lt" = some "exclusiveMaximum" ∧
        schemaKeyword "multiple_of" = some "multipleOf" ∧
        schemaKeyword "min_items" = some "minItems" ∧
        schemaKeyword "max_items" = some "maxItems" ∧
        schemaKeyword "min_length" = some "minLength" ∧
        schemaKeyword "max_length" = some "maxLength" ∧
        schemaKeyword "regex" = some "pattern" ∧
        schemaKeyword "description" = some "description" ∧
        schemaKeyword "example" = some "example" ∧
        schemaKeyword "allow_mutation" = some "allow_mutation" ∧
        schemaKeyword "alias" = none ∧
        schemaKeyword "const" = none) ∧
      (∀ f, f ∈ ageModel.fields →
        (exposedName f, fieldProperty f) ∈ (modelSchema ageModel).properties) ∧
      (∀ f, f ∈ ageModel.fields →
        ∀ k v k2, (k, v) ∈ f.constraints → schemaKeyword k = some k2 →
          (k2, v) ∈ fieldProperty f)) :=
  ⟨rfl, rfl,
    schema_keyword_mapping "Test" { validate_assignment := false } [ageCol] ageModel rfl⟩

end Alchemista
